import Mathlib

/-!
Verification development for the ItyFuzz EVM experiment harness
(`run_ityfuzz_evm.py`, `rq3_state_overhead.py`, `rq3_visualization.py`).

The Python sources are shallowly embedded: pure computations become Lean
functions, the filesystem and the fuzzer subprocess become explicit
environment arguments, machine floats on the measured quantities are
modelled by exact rationals.  Console output is not modelled except where
a claim is about it; wall-clock datetime strings (`start_time`,
`end_time`) are likewise outside the embedding.
-/

namespace ItyHarness

/-! ## The log scraper (`RQ3StateOverheadAnalyzer.parse_state_metrics`)

The scraper applies four `re.search` calls per line:
  `[Ss]tate.*?(\d+)`, `[Cc]orpus.*?(\d+)`, `\[(\d+\.\d+)s\]`,
  `[Mm]emory.*?(\d+(?:\.\d+)?)\s*(?:MB|M)`.
Each is embedded as a scanner with Python's leftmost-match semantics:
the match starts at the leftmost keyword occurrence that admits a
continuation, the lazy `.*?` gap (which cannot cross a newline, since `.`
does not match `\n`) is as short as possible, and each `\d+` is maximal.
A scanner returns the captured group as a digit string, exactly as
`m.group(1)` does; `int()` / `float()` are applied at the use site. -/

/-- Python `\s`: ASCII whitespace as matched by `re` on these logs. -/
def pyIsSpace (c : Char) : Bool :=
  c == ' ' || c == '\t' || c == '\n' || c == '\r' || c == '\x0c' || c == '\x0b'

def isDigitCh (c : Char) : Bool := '0' ≤ c && c ≤ '9'

/-- Maximal digit run at the head of the character list (`\d+`, greedy). -/
def takeDigits (s : List Char) : List Char := s.takeWhile isDigitCh

/-- Numeric value of a digit string, as `int()` reads it. -/
def natOfDigits (ds : List Char) : Nat :=
  ds.foldl (fun n c => n * 10 + (c.toNat - 48)) 0

/-- Value of a decimal string `d1.d2`, as `float()` reads it (exactly, in ℚ). -/
def ratOfDecimal (d1 d2 : List Char) : ℚ :=
  (natOfDigits d1 : ℚ) + (natOfDigits d2 : ℚ) / (10 : ℚ) ^ d2.length

/-- First maximal digit run strictly before the next newline:
the capture of a lazy gap `.*?` followed by a greedy `(\d+)`. -/
def firstDigitRun : List Char → Option (List Char)
  | [] => none
  | c :: rest =>
    if c == '\n' then none
    else if isDigitCh c then some (takeDigits (c :: rest))
    else firstDigitRun rest

/-- `re.search('[Xx]key.*?(\d+)', line)`, where the keyword is `lo`/`hi`
followed by `key`; yields the captured digit string. -/
def searchKeyNum (lo hi : Char) (key : List Char) : List Char → Option (List Char)
  | [] => none
  | c :: rest =>
    if (c == lo || c == hi) && key.isPrefixOf rest then
      match firstDigitRun (rest.drop key.length) with
      | some ds => some ds
      | none => searchKeyNum lo hi key rest
    else searchKeyNum lo hi key rest

/-- `re.search(r'[Ss]tate.*?(\d+)', line)`, the captured group. -/
def stateSearch (line : List Char) : Option (List Char) :=
  searchKeyNum 's' 'S' ['t', 'a', 't', 'e'] line

/-- `re.search(r'[Cc]orpus.*?(\d+)', line)`, the captured group. -/
def corpusSearch (line : List Char) : Option (List Char) :=
  searchKeyNum 'c' 'C' ['o', 'r', 'p', 'u', 's'] line

/-- Attempt `\[(\d+\.\d+)s\]` anchored at the head of the list; the
capture `d1.d2` is returned as the pair `(d1, d2)`. -/
def tryBracketTime (s : List Char) : Option (List Char × List Char) :=
  match s with
  | '[' :: r1 =>
    let d1 := takeDigits r1
    if d1.isEmpty then none
    else
      match r1.drop d1.length with
      | '.' :: r2 =>
        let d2 := takeDigits r2
        if d2.isEmpty then none
        else
          match r2.drop d2.length with
          | 's' :: ']' :: _ => some (d1, d2)
          | _ => none
      | _ => none
  | _ => none

/-- `re.search(r'\[(\d+\.\d+)s\]', line)`, the captured group split at
its decimal point. -/
def timeSearch : List Char → Option (List Char × List Char)
  | [] => none
  | c :: rest =>
    match tryBracketTime (c :: rest) with
    | some v => some v
    | none => timeSearch rest

/-- After the captured number, `\s*` (greedy) then the alternation
`MB|M`: succeeds iff the first non-whitespace character is `M`. -/
def wsThenM (s : List Char) : Bool :=
  match s.dropWhile pyIsSpace with
  | 'M' :: _ => true
  | _ => false

/-- Attempt `(\d+(?:\.\d+)?)\s*(?:MB|M)` anchored at the head of the
list; the capture is integer digits plus an optional fraction.
Shrinking a greedy `\d+` leaves a digit as the next character, which can
satisfy neither `\.` nor `\s*(?:MB|M)`, so only the optional fraction
backtracks. -/
def tryMemNum (s : List Char) : Option (List Char × Option (List Char)) :=
  let d1 := takeDigits s
  if d1.isEmpty then none
  else
    match s.drop d1.length with
    | '.' :: r2 =>
      let d2 := takeDigits r2
      if !d2.isEmpty && wsThenM (r2.drop d2.length) then some (d1, some d2)
      else none
    | rest1 => if wsThenM rest1 then some (d1, none) else none

/-- The lazy gap of the memory pattern: try the number-and-unit tail at
each position after the keyword, stopping at a newline (`.` does not
match `\n`). -/
def memValScan : List Char → Option (List Char × Option (List Char))
  | [] => none
  | c :: rest =>
    if c == '\n' then none
    else
      match tryMemNum (c :: rest) with
      | some v => some v
      | none => memValScan rest

/-- `re.search(r'[Mm]emory.*?(\d+(?:\.\d+)?)\s*(?:MB|M)', line)`, the
captured group. -/
def memorySearch : List Char → Option (List Char × Option (List Char))
  | [] => none
  | c :: rest =>
    if (c == 'm' || c == 'M') && List.isPrefixOf ['e', 'm', 'o', 'r', 'y'] rest then
      match memValScan (rest.drop 5) with
      | some v => some v
      | none => memorySearch rest
    else memorySearch rest

/-- `float()` on the bracketed-time capture. -/
def floatOfTimeCapture (p : List Char × List Char) : ℚ :=
  ratOfDecimal p.1 p.2

/-- `float()` on the memory capture (with or without a fraction part). -/
def floatOfMemCapture : List Char × Option (List Char) → ℚ
  | (d1, none) => (natOfDigits d1 : ℚ)
  | (d1, some d2) => ratOfDecimal d1 d2

/-- One scraped sample (the `metric` dict in `parse_state_metrics`). -/
structure Metric where
  timestamp : ℚ
  state_size : Nat
  corpus_size : Nat
  memory_mb : ℚ
  deriving DecidableEq, Repr

/-- The per-line body of `parse_state_metrics`: `emitted` is
`len(metrics)` at the time the line is processed. -/
def parseLine (line : List Char) (emitted : Nat) : Option Metric :=
  let sm := stateSearch line
  let cm := corpusSearch line
  let tm := timeSearch line
  let mm := memorySearch line
  if sm.isSome || cm.isSome || mm.isSome then
    some { timestamp := (tm.map floatOfTimeCapture).getD ((emitted : ℚ) * (1 / 2)),
           state_size := (sm.map natOfDigits).getD 0,
           corpus_size := (cm.map natOfDigits).getD 0,
           memory_mb := (mm.map floatOfMemCapture).getD 0 }
  else none

/-- The `for line in lines` loop, accumulating `metrics`. -/
def parseLoop : List (List Char) → List Metric → List Metric
  | [], metrics => metrics
  | l :: ls, metrics =>
    match parseLine l metrics.length with
    | some m => parseLoop ls (metrics ++ [m])
    | none => parseLoop ls metrics

/-- The file's contents as the scraper sees them: `readlines()` output, or
the exception text if `open`/`read` raised. -/
def FileRead : Type := Except String (List (List Char))

/-- `parse_state_metrics`: the whole body sits in one `try`, and
`readlines()` runs before the loop, so an open/read failure returns the
(empty) list collected so far. -/
def parse_state_metrics (file : FileRead) : List Metric :=
  match file with
  | .error _ => []
  | .ok lines => parseLoop lines []

/-! ### Specification-side reading of the scraper (for the per-line claim)

`scrapeSpec` follows the spec's words: one sample per line on which at
least one of the state / corpus / memory patterns matches, unmatched
fields defaulting to zero, the timestamp synthesized from the number of
samples already emitted when no bracketed time is present. -/

/-- Does the line trigger emission (`any([state, corpus, memory])`)? -/
def lineMatches (line : List Char) : Bool :=
  (stateSearch line).isSome || (corpusSearch line).isSome || (memorySearch line).isSome

/-- The sample emitted for a matching line when `k` samples precede it. -/
def metricOfLine (k : Nat) (line : List Char) : Metric :=
  { timestamp := ((timeSearch line).map floatOfTimeCapture).getD ((k : ℚ) * (1 / 2)),
    state_size := ((stateSearch line).map natOfDigits).getD 0,
    corpus_size := ((corpusSearch line).map natOfDigits).getD 0,
    memory_mb := ((memorySearch line).map floatOfMemCapture).getD 0 }

/-- Spec-side scraper: a counter-indexed recursion instead of the
source's accumulator loop. -/
def scrapeSpec : List (List Char) → Nat → List Metric
  | [], _ => []
  | l :: ls, k =>
    if lineMatches l then metricOfLine k l :: scrapeSpec ls (k + 1)
    else scrapeSpec ls k

/-! ## The ablation runner (`run_ityfuzz_evm.py`, class `ItyFuzzRunner`)

The fuzzer subprocess is abstracted by a `LaunchOutcome`: launching and
waiting either raises an exception, or the process exits `t` seconds
after the start, or it never exits.  `proc.wait(timeout=self.timeout+10)`
returns normally iff the process exits within `timeout + 10` seconds,
and raises `subprocess.TimeoutExpired` otherwise, after which the
process is killed.  The elapsed wall time of a normal exit is idealised
to `t` (scheduling slack is not modelled). -/

/-- What launching the fuzzer and waiting on it does. -/
inductive LaunchOutcome where
  | raises (msg : String)
  | exits (t : ℚ)
  | hangs
  deriving DecidableEq, Repr

def LaunchOutcome.isRaises : LaunchOutcome → Bool
  | .raises _ => true
  | _ => false

/-- Round to the nearest integer, ties to even: the rounding of Python's
`format(x, '.1f')` applied to the exact value. -/
def roundHalfEven (q : ℚ) : ℤ :=
  if q - ⌊q⌋ < 1 / 2 then ⌊q⌋
  else if 1 / 2 < q - ⌊q⌋ then ⌊q⌋ + 1
  else if ⌊q⌋ % 2 = 0 then ⌊q⌋ else ⌊q⌋ + 1

/-- `f"{elapsed:.1f}"` for a nonnegative elapsed time. -/
def fmtOneDecimal (q : ℚ) : String :=
  let n := roundHalfEven (q * 10)
  toString (n / 10) ++ "." ++ toString (n % 10)

namespace Runner1

/-- The `result` dict of `ItyFuzzRunner.run_fuzzing` (the wall-clock
`start_time` / `end_time` strings are outside the embedding). -/
structure RunResult where
  project : String
  config : String
  exploit_type : String := "various"
  timeout : Bool := false
  oom : Bool := false
  detection_time : Option String := none
  status : String := "pending"
  error : Option String := none
  deriving DecidableEq, Repr

/-- Test configurations (`self.configs`): name and extra arguments. -/
def configs : List (String × List String) :=
  [("ItyFuzz", []), ("ItyFuzz-DF", ["--dataflow"]), ("ItyFuzz-Rand", ["--random"])]

/-- Contracts from the paper (`self.contracts`). -/
def contracts : List String :=
  ["dvd_unstoppable", "bacon_protocol", "n00d_token", "egd_finance",
   "contract1_undisclosed", "contract2_undisclosed"]

/-- The `try` block of `run_fuzzing`: launch, wait with deadline
`T + 10`, kill on expiry; an exception yields the error record.  The
second component records whether `proc.kill()` ran. -/
def runAttempt (T : ℚ) (result : RunResult) (b : LaunchOutcome) : RunResult × Bool :=
  match b with
  | .raises msg => ({ result with status := "error", error := some msg }, false)
  | .exits t =>
    if t ≤ T + 10 then
      ({ result with detection_time := some (fmtOneDecimal t ++ "s"),
                     status := "completed" }, false)
    else
      ({ result with timeout := true, status := "timeout",
                     detection_time := some "Timeout" }, true)
  | .hangs =>
    ({ result with timeout := true, status := "timeout",
                   detection_time := some "Timeout" }, true)

/-- `ItyFuzzRunner.run_fuzzing`: returns `None` when the contract file is
missing, otherwise the filled-in result record. -/
def run_fuzzing (T : ℚ) (contract config_name : String) (fsHas : Bool)
    (b : LaunchOutcome) : Option (RunResult × Bool) :=
  if !fsHas then none
  else some (runAttempt T { project := contract, config := config_name } b)

/-- The environment a sweep runs in: for each (contract, config-name)
pair, whether the contract file exists and what the launch does. -/
def Env : Type := String → String → Bool × LaunchOutcome

/-- The nested loops of `run_all_tests`, over explicit lists. -/
def sweep (env : Env) (T : ℚ) (cs : List String) (ks : List (String × List String)) :
    List RunResult :=
  cs.flatMap fun c =>
    ks.filterMap fun kc =>
      (run_fuzzing T c kc.1 (env c kc.1).1 (env c kc.1).2).map Prod.fst

/-- `ItyFuzzRunner.run_all_tests` (after `create_sample_contracts`):
run every contract under every configuration, dropping `None` results. -/
def run_all_tests (env : Env) (T : ℚ) : List RunResult :=
  sweep env T contracts configs

/-- The (contract, config-name) pairs in sweep order. -/
def pairsOf (cs : List String) (ks : List (String × List String)) :
    List (String × String) :=
  cs.flatMap fun c => ks.map fun kc => (c, kc.1)

/-- A concrete environment in which exactly one pair raises. -/
def witnessEnvC1 : String → String → LaunchOutcome := fun c k =>
  if c == "n00d_token" && k == "ItyFuzz-DF" then .raises "boom" else .hangs

end Runner1

/-! ## The RQ3 analyzer (`rq3_state_overhead.py`, class
`RQ3StateOverheadAnalyzer`)

`run_fuzzing_with_metrics` shares the launch/deadline skeleton of the
ablation runner and then summarizes the scraped log.  The log file's
final contents are an input of the embedding; the background monitor
thread only duplicates samples into `monitor_data`, which the result
never reads, so it is not modelled. -/

namespace RQ3

/-- The `result` dict of `run_fuzzing_with_metrics` (wall-clock
`start_time` / `end_time` strings are outside the embedding). -/
structure RQ3Result where
  project : String
  config : String
  status : String := "pending"
  timeout : Bool := false
  oom : Bool := false
  detection_time : Option String := none
  max_state_corpus : Nat := 0
  final_memory_mb : ℚ := 0
  avg_memory_mb : ℚ := 0
  state_growth_rate : ℚ := 0
  metrics_timeline : List Metric := []
  error : Option String := none
  deriving DecidableEq, Repr

/-- RQ3 variants (`self.configs`): name, arguments, plot color. -/
def configs : List (String × List String × String) :=
  [("ItyFuzz", [], "orange"),
   ("ItyFuzz-DF", ["--dataflow"], "blue"),
   ("ItyFuzz-Rand", ["--random"], "yellow")]

/-- Dataset B1 contracts (`self.contracts`). -/
def contracts : List String :=
  ["dvd_unstoppable", "bacon_protocol", "n00d_token", "egd_finance",
   "contract1_undisclosed", "contract2_undisclosed"]

/-- The post-wait analysis: store the scraped timeline and, when it is
nonempty, the max corpus size, last and mean memory value, and — when
there is more than one sample — the growth rate
`(corpus_sizes[-1] - corpus_sizes[0]) / max(len(corpus_sizes), 1)`.
Python's `max` of a nonempty list of naturals is `foldl max 0`. -/
def summarize (r : RQ3Result) (metrics : List Metric) : RQ3Result :=
  let r := { r with metrics_timeline := metrics }
  if !metrics.isEmpty then
    let corpus_sizes := metrics.map fun m => m.corpus_size
    let memory_values := metrics.map fun m => m.memory_mb
    let r := { r with
      max_state_corpus := if !corpus_sizes.isEmpty then corpus_sizes.foldl max 0 else 0,
      final_memory_mb := if !memory_values.isEmpty then memory_values.getLast?.getD 0 else 0,
      avg_memory_mb :=
        if !memory_values.isEmpty then memory_values.sum / (memory_values.length : ℚ)
        else 0 }
    if 1 < corpus_sizes.length then
      { r with state_growth_rate :=
          (((corpus_sizes.getLast?.getD 0 : ℤ) - (corpus_sizes.head?.getD 0 : ℤ) : ℤ) : ℚ) /
            ((max corpus_sizes.length 1 : ℕ) : ℚ) }
    else r
  else r

/-- The `try` block of `run_fuzzing_with_metrics`: launch, wait with
deadline `T + 10`, kill on expiry, then scrape the log and summarize.
An exception from launch or a non-timeout wait failure skips the scrape
and yields the error record.  The second component records whether
`proc.kill()` ran. -/
def runAttemptMetrics (T : ℚ) (result : RQ3Result) (b : LaunchOutcome)
    (log : FileRead) : RQ3Result × Bool :=
  match b with
  | .raises msg => ({ result with status := "error", error := some msg }, false)
  | .exits t =>
    if t ≤ T + 10 then
      (summarize { result with detection_time := some (fmtOneDecimal t ++ "s"),
                               status := "completed" }
        (parse_state_metrics log), false)
    else
      (summarize { result with timeout := true, status := "timeout",
                               detection_time := some "Timeout" }
        (parse_state_metrics log), true)
  | .hangs =>
    (summarize { result with timeout := true, status := "timeout",
                             detection_time := some "Timeout" }
      (parse_state_metrics log), true)

/-- `RQ3StateOverheadAnalyzer.run_fuzzing_with_metrics`: `None` when the
contract file is missing, otherwise the summarized result record. -/
def run_fuzzing_with_metrics (T : ℚ) (contract config_name : String)
    (fsHas : Bool) (b : LaunchOutcome) (log : FileRead) :
    Option (RQ3Result × Bool) :=
  if !fsHas then none
  else some (runAttemptMetrics T { project := contract, config := config_name } b log)

end RQ3

namespace Runner1

/-- One row of `save_results` (`results.csv`).  The csv writer prints
the booleans as their Python `str()`; a `None` detection time and an
absent-key default both serialize to the empty string. -/
structure CsvRow where
  project : String
  config : String
  exploit_type : String
  detection_time : String
  timeout : Bool
  oom : Bool
  status : String
  deriving DecidableEq, Repr

/-- The `row` dict built for one result in `save_results`. -/
def toRow (r : RunResult) : CsvRow :=
  { project := r.project, config := r.config,
    exploit_type := r.exploit_type,
    detection_time := r.detection_time.getD "",
    timeout := r.timeout, oom := r.oom, status := r.status }

/-- The rows `save_results` writes to `results.csv`, in order. -/
def save_rows (results : List RunResult) : List CsvRow := results.map toRow

end Runner1

/-! ## The fixture generators (`create_sample_contracts`,
`create_realistic_contracts`)

The contracts directory is abstracted as a partial map from file name to
file contents; `write_text` is an overwriting update, guarded by the
source's `if not contract_file.exists()`. -/

/-- Abstract contracts directory: file name to contents. -/
def FS : Type := String → Option String

/-- One loop step: `contract_file.write_text(code)` only when
`not contract_file.exists()`. -/
def writeIfAbsent (fs : FS) (name code : String) : FS :=
  if (fs name).isSome then fs
  else fun n => if n = name then some code else fs n

/-- The `for name, code in contracts.items()` loop; the file written for
`name` is `name.sol`. -/
def writeMissing (catalog : List (String × String)) (fs : FS) : FS :=
  catalog.foldl (fun fs2 nc => writeIfAbsent fs2 (nc.1 ++ ".sol") nc.2) fs

namespace Runner1

/-- The corresponding contract source in `create_sample_contracts`. -/
def reentrancy_contract : String :=
  "\n" ++
  "pragma solidity ^0.8.0;\n" ++
  "\n" ++
  "contract ReentrancyVulnerable \x7b\n" ++
  "    mapping(address => uint) public balances;\n" ++
  "    \n" ++
  "    function deposit() external payable \x7b\n" ++
  "        balances[msg.sender] += msg.value;\n" ++
  "    \x7d\n" ++
  "    \n" ++
  "    function withdraw(uint amount) external \x7b\n" ++
  "        require(balances[msg.sender] >= amount);\n" ++
  "        (bool success, ) = msg.sender.call\x7bvalue: amount\x7d(\"\");\n" ++
  "        require(success);\n" ++
  "        balances[msg.sender] -= amount;\n" ++
  "    \x7d\n" ++
  "\x7d\n" ++
  ""

/-- The corresponding contract source in `create_sample_contracts`. -/
def dos_contract : String :=
  "\n" ++
  "pragma solidity ^0.8.0;\n" ++
  "\n" ++
  "contract DoSVulnerable \x7b\n" ++
  "    address[] public participants;\n" ++
  "    \n" ++
  "    function addParticipant(address addr) external \x7b\n" ++
  "        participants.push(addr);\n" ++
  "    \x7d\n" ++
  "    \n" ++
  "    function refund() external \x7b\n" ++
  "        for(uint i = 0; i < participants.length; i++) \x7b\n" ++
  "            (bool success, ) = participants[i].call\x7bvalue: 1 ether\x7d(\"\");\n" ++
  "            require(success);\n" ++
  "        \x7d\n" ++
  "    \x7d\n" ++
  "\x7d\n" ++
  ""

/-- The corresponding contract source in `create_sample_contracts`. -/
def manipulation_contract : String :=
  "\n" ++
  "pragma solidity ^0.8.0;\n" ++
  "\n" ++
  "interface IPriceOracle \x7b\n" ++
  "    function getPrice(address token) external view returns (uint);\n" ++
  "\x7d\n" ++
  "\n" ++
  "contract PriceManipulation \x7b\n" ++
  "    IPriceOracle oracle;\n" ++
  "    \n" ++
  "    function liquidate(address user) external \x7b\n" ++
  "        uint price = oracle.getPrice(address(0));\n" ++
  "        if (price < 100) \x7b\n" ++
  "            // liquidate user - vulnerable to price oracle manipulation\n" ++
  "        \x7d\n" ++
  "    \x7d\n" ++
  "\x7d\n" ++
  ""

/-- The `contracts` dict of `create_sample_contracts`. -/
def sampleCatalog : List (String × String) :=
  [("dvd_unstoppable", dos_contract),
   ("bacon_protocol", reentrancy_contract),
   ("n00d_token", dos_contract),
   ("egd_finance", manipulation_contract),
   ("contract1_undisclosed", reentrancy_contract),
   ("contract2_undisclosed", dos_contract)]

/-- `ItyFuzzRunner.create_sample_contracts` acting on the contracts
directory. -/
def create_sample_contracts (fs : FS) : FS := writeMissing sampleCatalog fs

end Runner1

namespace RQ3

/-- The corresponding contract source in `create_realistic_contracts`. -/
def reentrancy : String :=
  "pragma solidity ^0.8.0;\n" ++
  "\n" ++
  "contract VulnerableBank \x7b\n" ++
  "    mapping(address => uint) public balances;\n" ++
  "    bool locked = false;\n" ++
  "    \n" ++
  "    function deposit() external payable \x7b\n" ++
  "        balances[msg.sender] += msg.value;\n" ++
  "    \x7d\n" ++
  "    \n" ++
  "    function withdraw(uint amount) external \x7b\n" ++
  "        require(!locked, \"No reentrancy\");\n" ++
  "        require(balances[msg.sender] >= amount, \"Insufficient balance\");\n" ++
  "        \n" ++
  "        locked = true;\n" ++
  "        (bool success, ) = msg.sender.call\x7bvalue: amount\x7d(\"\");\n" ++
  "        require(success, \"Transfer failed\");\n" ++
  "        \n" ++
  "        balances[msg.sender] -= amount;\n" ++
  "        locked = false;\n" ++
  "    \x7d\n" ++
  "    \n" ++
  "    function emergencyWithdraw(address attacker) external \x7b\n" ++
  "        require(msg.sender == attacker);\n" ++
  "        payable(msg.sender).transfer(address(this).balance);\n" ++
  "    \x7d\n" ++
  "\x7d"

/-- The corresponding contract source in `create_realistic_contracts`. -/
def dos : String :=
  "pragma solidity ^0.8.0;\n" ++
  "\n" ++
  "contract VulnerableAuction \x7b\n" ++
  "    address[] public bidders;\n" ++
  "    mapping(address => uint) public bids;\n" ++
  "    bool finalized = false;\n" ++
  "    \n" ++
  "    function bid() external payable \x7b\n" ++
  "        bidders.push(msg.sender);\n" ++
  "        bids[msg.sender] += msg.value;\n" ++
  "    \x7d\n" ++
  "    \n" ++
  "    function finalize() external \x7b\n" ++
  "        require(!finalized);\n" ++
  "        \n" ++
  "        for (uint i = 0; i < bidders.length; i++) \x7b\n" ++
  "            (bool success, ) = bidders[i].call\x7bvalue: bids[bidders[i]]\x7d(\"\");\n" ++
  "            if (!success) revert(\"Refund failed\");\n" ++
  "        \x7d\n" ++
  "        finalized = true;\n" ++
  "    \x7d\n" ++
  "    \n" ++
  "    function emergencyStop() external \x7b\n" ++
  "        finalized = true;\n" ++
  "    \x7d\n" ++
  "\x7d"

/-- The corresponding contract source in `create_realistic_contracts`. -/
def manipulation : String :=
  "pragma solidity ^0.8.0;\n" ++
  "\n" ++
  "interface IPriceOracle \x7b\n" ++
  "    function getPrice(address token) external view returns (uint);\n" ++
  "\x7d\n" ++
  "\n" ++
  "contract VulnerableLending \x7b\n" ++
  "    IPriceOracle oracle;\n" ++
  "    mapping(address => uint) collateral;\n" ++
  "    \n" ++
  "    function depositCollateral() external payable \x7b\n" ++
  "        collateral[msg.sender] += msg.value;\n" ++
  "    \x7d\n" ++
  "    \n" ++
  "    function borrow(address token, uint amount) external \x7b\n" ++
  "        uint collateralValue = collateral[msg.sender];\n" ++
  "        uint requiredCollateral = (amount * 150) / 100;\n" ++
  "        \n" ++
  "        uint price = oracle.getPrice(token);\n" ++
  "        require(collateralValue * price >= requiredCollateral);\n" ++
  "        \n" ++
  "        // Transfer tokens\n" ++
  "    \x7d\n" ++
  "    \n" ++
  "    function liquidate(address user) external \x7b\n" ++
  "        uint collateralValue = collateral[user];\n" ++
  "        uint price = oracle.getPrice(address(0));\n" ++
  "        \n" ++
  "        if (price < 100) \x7b\n" ++
  "            // liquidate without proper checks - vulnerable\n" ++
  "            collateral[user] = 0;\n" ++
  "        \x7d\n" ++
  "    \x7d\n" ++
  "\x7d"

/-- The corresponding contract source in `create_realistic_contracts`. -/
def access : String :=
  "pragma solidity ^0.8.0;\n" ++
  "\n" ++
  "contract VulnerableToken \x7b\n" ++
  "    mapping(address => uint) public balances;\n" ++
  "    address admin;\n" ++
  "    \n" ++
  "    constructor() \x7b\n" ++
  "        admin = msg.sender;\n" ++
  "    \x7d\n" ++
  "    \n" ++
  "    function mint(address to, uint amount) external \x7b\n" ++
  "        // Missing access control check\n" ++
  "        balances[to] += amount;\n" ++
  "    \x7d\n" ++
  "    \n" ++
  "    function burn(address from, uint amount) external \x7b\n" ++
  "        require(balances[from] >= amount);\n" ++
  "        balances[from] -= amount;\n" ++
  "    \x7d\n" ++
  "    \n" ++
  "    function transfer(address to, uint amount) external \x7b\n" ++
  "        require(balances[msg.sender] >= amount);\n" ++
  "        balances[msg.sender] -= amount;\n" ++
  "        balances[to] += amount;\n" ++
  "    \x7d\n" ++
  "\x7d"

/-- The `contracts` dict of `create_realistic_contracts`. -/
def realisticCatalog : List (String × String) :=
  [("dvd_unstoppable", dos),
   ("bacon_protocol", reentrancy),
   ("n00d_token", access),
   ("egd_finance", manipulation),
   ("contract1_undisclosed", access),
   ("contract2_undisclosed", reentrancy)]

/-- `RQ3StateOverheadAnalyzer.create_realistic_contracts` acting on the
contracts directory. -/
def create_realistic_contracts (fs : FS) : FS := writeMissing realisticCatalog fs

end RQ3

/-- A one-file contracts directory holding a manually edited fixture. -/
def editedFS : FS := fun n =>
  if n = "bacon_protocol.sol" then some "// manually edited" else none

/-! ## The visualizer (`rq3_visualization.py`, class `RQ3Visualizer`)

The matplotlib calls are modelled by the data they draw: the timeline
chart is a list of plotted lines plus the y-axis scale, and
`generate_all_plots` returns the image files it saves together with the
messages it logs.  `np.interp` and `np.linspace` are embedded exactly
(over ℚ), for increasing sample times. -/

namespace Viz

/-- `self.colors`. -/
def colors : List (String × String) :=
  [("ItyFuzz", "#FF8C42"), ("ItyFuzz-DF", "#1F77B4"), ("ItyFuzz-Rand", "#FFD700")]

/-- `self.colors.get(config, '#000000')`. -/
def colorOf (c : String) : String :=
  ((colors.find? (fun e => e.1 == c)).map Prod.snd).getD "#000000"

/-- `load_metrics`: the empty list when the metrics file is absent,
otherwise the parsed JSON array. -/
def load_metrics (file : Option (List RQ3.RQ3Result)) : List RQ3.RQ3Result :=
  match file with
  | none => []
  | some results => results

/-- `np.linspace(0, m, 20)`: twenty evenly spaced points from `0` to
`m`, endpoints included. -/
def linspace20 (m : ℚ) : List ℚ :=
  (List.range 20).map fun i => (i : ℚ) * m / 19

/-- Python `max(l)` for the nonempty lists this code feeds it. -/
def maxList (l : List ℚ) : ℚ :=
  match l with
  | [] => 0
  | x :: xs => xs.foldl max x

/-- `np.interp x xp fp` for increasing `xp`: clamps to the first / last
value outside the sample range, linear in between. -/
def interp (x : ℚ) : List ℚ → List ℚ → ℚ
  | [], _ => 0
  | _ :: _, [] => 0
  | [x0], f0 :: _ => if x ≤ x0 then f0 else f0
  | x0 :: x1 :: xs, f0 :: f1 :: fs =>
    if x ≤ x0 then f0
    else if x ≤ x1 then f0 + (f1 - f0) * (x - x0) / (x1 - x0)
    else interp x (x1 :: xs) (f1 :: fs)
  | _ :: _ :: _, [_] => 0

/-- The per-config accumulator: the runs appended for one configuration,
as (times, sizes) pairs in encounter order.  (The Python dict keeps
`times` and `sizes` in two lists appended in lockstep; the pair list is
the same data.) -/
abbrev ConfigRuns : Type := List (String × List (List ℚ × List ℚ))

/-- `if config not in config_data: config_data[config] = ...` — dicts
preserve insertion order. -/
def ensureKey (d : ConfigRuns) (c : String) : ConfigRuns :=
  if d.any (fun e => e.1 == c) then d else d ++ [(c, [])]

/-- Append one run to its configuration's entry. -/
def appendRun (d : ConfigRuns) (c : String) (run : List ℚ × List ℚ) : ConfigRuns :=
  d.map fun e => if e.1 == c then (e.1, e.2 ++ [run]) else e

/-- The grouping loop of `plot_state_corpus_timeline`: one (times,
sizes) pair per result with a nonempty timeline. -/
def groupByConfig (metrics : List RQ3.RQ3Result) : ConfigRuns :=
  metrics.foldl
    (fun d result =>
      let d := ensureKey d result.config
      let timeline := result.metrics_timeline
      if !timeline.isEmpty then
        let times := timeline.map fun m => m.timestamp
        let sizes := timeline.map fun m => (m.corpus_size : ℚ)
        if !times.isEmpty && !sizes.isEmpty then
          appendRun d result.config (times, sizes)
        else d
      else d)
    []

/-- `sorted(config_data.items())`: ascending by configuration name (the
keys are distinct). -/
def sortByKey (d : ConfigRuns) : ConfigRuns :=
  d.mergeSort fun a b => a.1 ≤ b.1

/-- The inner resampling loop: each run is interpolated onto twenty
points spanning `[0, max(times)]`; `avg_times` is set from the first
resampled run and the interpolated rows are collected. -/
def resampleStep (acc : List ℚ × List (List ℚ)) (ts : List ℚ × List ℚ) :
    List ℚ × List (List ℚ) :=
  if !ts.1.isEmpty then
    let max_time := maxList ts.1
    let common_timeline := linspace20 max_time
    let interpolated := common_timeline.map fun x => interp x ts.1 ts.2
    let avg_times := if acc.1.isEmpty then common_timeline else acc.1
    (avg_times, acc.2 ++ [interpolated])
  else acc

def resampleRuns (runs : List (List ℚ × List ℚ)) : List ℚ × List (List ℚ) :=
  runs.foldl resampleStep ([], [])

/-- `np.mean(avg_sizes, axis=0)` for rows of length twenty. -/
def meanPointwise (rows : List (List ℚ)) : List ℚ :=
  (List.range 20).map fun j => (rows.map fun r => r.getD j 0).sum / (rows.length : ℚ)

/-- One `ax.plot` call of the timeline chart. -/
structure PlotLine where
  label : String
  xs : List ℚ
  ys : List ℚ
  color : String
  deriving DecidableEq, Repr

/-- The timeline figure: its plotted lines and its y-axis scale. -/
structure Chart where
  lines : List PlotLine
  yscale : String
  deriving DecidableEq, Repr

/-- `plot_state_corpus_timeline`: group, sort, resample, average, plot
one line per configuration, with `ax.set_yscale('log')`. -/
def plot_state_corpus_timeline (metrics : List RQ3.RQ3Result) : Chart :=
  let lines := (sortByKey (groupByConfig metrics)).filterMap fun cd =>
    if !cd.2.isEmpty then
      let resampled := resampleRuns cd.2
      if !resampled.2.isEmpty then
        some { label := cd.1, xs := resampled.1, ys := meanPointwise resampled.2,
               color := colorOf cd.1 }
      else none
    else none
  { lines := lines, yscale := "log" }

/-- `generate_all_plots`: the image files saved and the messages
printed.  With a nonempty metrics list all three plots are saved: the
timeline plot saves unconditionally, and both bar plots group by
`result.get('project', 'Unknown')`, whose dict is nonempty whenever the
metrics list is. -/
def generate_all_plots (file : Option (List RQ3.RQ3Result)) :
    List String × List String :=
  let msgs := match file with
    | none => ["[!] Metrics file not found: results_rq3/data/rq3_metrics.json"]
    | some _ => []
  let metrics := load_metrics file
  if metrics.isEmpty then ([], msgs ++ ["[!] No metrics to visualize"])
  else
    (["state_corpus_timeline.png", "memory_comparison.png",
      "detection_time_comparison.png"], msgs)

/-- Specification-side resampling of one run: linear interpolation onto
twenty evenly spaced points spanning that run's own observed time range. -/
def resampleRun (times sizes : List ℚ) : List ℚ :=
  (linspace20 (maxList times)).map fun x => interp x times sizes

end Viz

/-! ## Theorems -/

example : stateSearch "State corpus size: 1234".toList = some ['1', '2', '3', '4'] := by decide

example : corpusSearch "State corpus size: 1234".toList = some ['1', '2', '3', '4'] := by decide

example : stateSearch "no digits here state".toList = none := by decide

example : timeSearch "[12.5s] running".toList = some (['1', '2'], ['5']) := by decide

example : timeSearch "[12s] running".toList = none := by decide

example : memorySearch "Memory: 34.5 MB".toList = some (['3', '4'], some ['5']) := by decide

example : memorySearch "memory 12.3.4MB".toList = some (['3'], some ['4']) := by decide

example : memorySearch "memory 12.5X 3MB".toList = some (['3'], none) := by decide

example : memorySearch "memory 5 KB".toList = none := by decide

example :
    (parse_state_metrics (.ok ["corpus 10\n".toList, "[3.5s] hello\n".toList,
      "state 7 corpus 9\n".toList])).map (fun m => (m.state_size, m.corpus_size)) =
    [(0, 10), (7, 9)] := by decide

theorem parseLine_eq (line : List Char) (k : Nat) :
    parseLine line k = if lineMatches line then some (metricOfLine k line) else none := by
  rfl

theorem parseLoop_eq_scrapeSpec (ls : List (List Char)) :
    ∀ acc : List Metric, parseLoop ls acc = acc ++ scrapeSpec ls acc.length := by
  induction ls with
  | nil => intro acc; simp [parseLoop, scrapeSpec]
  | cons l ls ih =>
    intro acc
    rw [parseLoop, parseLine_eq]
    by_cases h : lineMatches l
    · simp only [h, if_true, scrapeSpec, ih]
      simp
    · simp only [h, if_false, Bool.false_eq_true, scrapeSpec, ih]

theorem scrapeSpec_length (ls : List (List Char)) :
    ∀ k, (scrapeSpec ls k).length = ls.countP lineMatches := by
  induction ls with
  | nil => intro k; simp [scrapeSpec]
  | cons l ls ih =>
    intro k
    by_cases h : lineMatches l <;>
      simp [scrapeSpec, h, ih, List.countP_cons]

theorem scrapeSpec_append (xs ys : List (List Char)) :
    ∀ k, scrapeSpec (xs ++ ys) k = scrapeSpec xs k ++ scrapeSpec ys (k + xs.countP lineMatches) := by
  induction xs with
  | nil => intro k; simp [scrapeSpec]
  | cons l xs ih =>
    intro k
    by_cases h : lineMatches l <;>
      simp [scrapeSpec, h, ih, List.countP_cons, Nat.add_assoc, Nat.add_comm 1]

theorem parse_ok_eq_scrapeSpec (lines : List (List Char)) :
    parse_state_metrics (.ok lines) = scrapeSpec lines 0 := by
  simpa using parseLoop_eq_scrapeSpec lines []

/-- C5: for every log file, the scraper emits exactly one sample per line
on which at least one of the state-size, corpus-size or memory patterns
matches — a line matching only the timestamp pattern emits nothing — and
in an emitted sample every unmatched field defaults to 0, while the
timestamp is the bracketed `[X.Xs]` value when present and otherwise
`0.5` times the number of samples already emitted. -/
theorem claim_C5_scraper_per_line (lines : List (List Char)) :
    parse_state_metrics (.ok lines) = scrapeSpec lines 0 ∧
    (parse_state_metrics (.ok lines)).length = lines.countP lineMatches := by
  refine ⟨parse_ok_eq_scrapeSpec lines, ?_⟩
  rw [parse_ok_eq_scrapeSpec lines, scrapeSpec_length]

/-- C6: the scraper is a deterministic pure function of the file's
content — re-scraping the same content yields the identical sample
sequence — and the emitted samples follow the line order of the file:
the samples of a prefix of the file form the corresponding prefix of the
output, with the remaining lines contributing the suffix. -/
theorem claim_C6_scraper_pure_ordered :
    (∀ f1 f2 : FileRead, f1 = f2 → parse_state_metrics f1 = parse_state_metrics f2) ∧
    ∀ xs ys : List (List Char),
      parse_state_metrics (.ok (xs ++ ys)) =
        parse_state_metrics (.ok xs) ++
          scrapeSpec ys (parse_state_metrics (.ok xs)).length := by
  refine ⟨fun f1 f2 h => by rw [h], fun xs ys => ?_⟩
  rw [parse_ok_eq_scrapeSpec, parse_ok_eq_scrapeSpec, scrapeSpec_append,
    scrapeSpec_length, Nat.zero_add]

theorem claim_C6_witness :
    parse_state_metrics (Except.ok ["corpus 3".toList]) =
      parse_state_metrics (Except.ok ["corpus 3".toList]) ∧
    parse_state_metrics (.ok (["corpus 3".toList] ++ ["state 4".toList])) =
      parse_state_metrics (.ok ["corpus 3".toList]) ++
        scrapeSpec ["state 4".toList]
          (parse_state_metrics (.ok ["corpus 3".toList])).length :=
  ⟨claim_C6_scraper_pure_ordered.1 _ _ rfl,
   claim_C6_scraper_pure_ordered.2 ["corpus 3".toList] ["state 4".toList]⟩

/-- C10: the scraper never raises at its public interface: an exception
while opening or reading the log file is caught and the samples collected
up to that point — necessarily none, since `readlines()` precedes the
loop — are returned as the empty list. -/
theorem claim_C10_scraper_error_swallowed (msg : String) :
    parse_state_metrics (.error msg) = [] := rfl

namespace Runner1

theorem filterMap_run_eq_map (f : String → String → LaunchOutcome) (T : ℚ)
    (c : String) (ks : List (String × List String)) :
    (ks.filterMap fun kc => (run_fuzzing T c kc.1 true (f c kc.1)).map Prod.fst) =
      ks.map fun kc => (runAttempt T { project := c, config := kc.1 } (f c kc.1)).1 := by
  induction ks with
  | nil => rfl
  | cons kc ks ihk =>
    rw [List.filterMap_cons, ihk]
    simp [run_fuzzing]

theorem sweep_eq_map (f : String → String → LaunchOutcome) (T : ℚ)
    (cs : List String) (ks : List (String × List String)) :
    sweep (fun c k => (true, f c k)) T cs ks =
      (pairsOf cs ks).map
        (fun p => (runAttempt T { project := p.1, config := p.2 } (f p.1 p.2)).1) := by
  induction cs with
  | nil => rfl
  | cons c cs ih =>
    simp only [sweep, pairsOf, List.flatMap_cons, List.map_append] at ih ⊢
    rw [ih, filterMap_run_eq_map, List.map_map]
    rfl

theorem pairsOf_length (cs : List String) (ks : List (String × List String)) :
    (pairsOf cs ks).length = cs.length * ks.length := by
  induction cs with
  | nil => simp [pairsOf]
  | cons c cs ih =>
    simp only [pairsOf, List.flatMap_cons, List.length_append, List.length_map,
      List.length_cons] at ih ⊢
    rw [ih, Nat.succ_mul, Nat.add_comm]

theorem runAttempt_status_error (T : ℚ) (r : RunResult) (b : LaunchOutcome) :
    (((runAttempt T r b).1.status) == "error") = b.isRaises := by
  cases b with
  | raises msg => rfl
  | exits t =>
    by_cases h : t ≤ T + 10 <;> simp [runAttempt, h, LaunchOutcome.isRaises]
  | hangs => rfl

/-- C1: sweep isolation.  Over the full contract × configuration matrix
(with every contract file present, as `create_sample_contracts`
guarantees), if exactly one pair's launch raises, the sweep still
returns `|contracts| × |configs|` results, exactly one of which has
status `"error"`; every result is a function of its own pair's launch
outcome alone (so the other pairs are unaffected), and the raising
pair's record carries status `"error"` and the exception text. -/
theorem claim_C1_sweep_isolation (f : String → String → LaunchOutcome) (T : ℚ)
    (hone : (pairsOf contracts configs).countP (fun p => (f p.1 p.2).isRaises) = 1) :
    (run_all_tests (fun c k => (true, f c k)) T).length =
      contracts.length * configs.length ∧
    (run_all_tests (fun c k => (true, f c k)) T).countP
      (fun r => r.status == "error") = 1 ∧
    run_all_tests (fun c k => (true, f c k)) T =
      (pairsOf contracts configs).map
        (fun p => (runAttempt T { project := p.1, config := p.2 } (f p.1 p.2)).1) ∧
    ∀ p : String × String, ∀ msg, f p.1 p.2 = .raises msg →
      (runAttempt T { project := p.1, config := p.2 } (f p.1 p.2)).1.status = "error" ∧
      (runAttempt T { project := p.1, config := p.2 } (f p.1 p.2)).1.error = some msg := by
  have hmap := sweep_eq_map f T contracts configs
  refine ⟨?_, ?_, hmap, ?_⟩
  · rw [run_all_tests, hmap, List.length_map, pairsOf_length]
  · rw [run_all_tests, hmap, List.countP_map]
    have hfun :
        ((fun r : RunResult => r.status == "error") ∘
          fun p : String × String =>
            (runAttempt T { project := p.1, config := p.2 } (f p.1 p.2)).1) =
          fun p : String × String => (f p.1 p.2).isRaises := by
      funext p
      exact runAttempt_status_error T _ _
    rw [hfun, hone]
  · intro p msg hp
    rw [hp]
    exact ⟨rfl, rfl⟩

theorem claim_C1_witness :
    (pairsOf contracts configs).countP
        (fun p => (witnessEnvC1 p.1 p.2).isRaises) = 1 ∧
    (run_all_tests (fun c k => (true, witnessEnvC1 c k)) 60).countP
        (fun r => r.status == "error") = 1 :=
  ⟨by decide, (claim_C1_sweep_isolation witnessEnvC1 60 (by decide)).2.1⟩

end Runner1

namespace RQ3

theorem summarize_status (r : RQ3Result) (ms : List Metric) :
    (summarize r ms).status = r.status ∧
    (summarize r ms).detection_time = r.detection_time ∧
    (summarize r ms).timeout = r.timeout ∧
    (summarize r ms).oom = r.oom := by
  rcases ms with _ | ⟨m, ms⟩
  · exact ⟨rfl, rfl, rfl, rfl⟩
  · simp only [summarize, List.map_cons, List.isEmpty_cons, Bool.not_false, if_true]
    split_ifs <;> simp

theorem summarize_growth (r : RQ3Result) (ms : List Metric)
    (h0 : r.state_growth_rate = 0) :
    (summarize r ms).state_growth_rate =
      if 1 < (ms.map fun m => m.corpus_size).length then
        ((((((ms.map fun m => m.corpus_size).getLast?.getD 0 : ℕ) : ℤ) -
            (((ms.map fun m => m.corpus_size).head?.getD 0 : ℕ) : ℤ) : ℤ) : ℚ)) /
          ((max (ms.map fun m => m.corpus_size).length 1 : ℕ) : ℚ)
      else 0 := by
  rcases ms with _ | ⟨m, ms⟩
  · simpa [summarize] using h0
  · simp only [summarize, List.isEmpty_cons, Bool.not_false, if_true]
    by_cases h : 1 < (List.map (fun m => m.corpus_size) (m :: ms)).length
    · simp only [h, if_true]
    · simp only [h, if_false]
      simpa using h0

theorem summarize_status_eq (r : RQ3Result) (ms : List Metric) :
    (summarize r ms).status = r.status := (summarize_status r ms).1

theorem summarize_detection_eq (r : RQ3Result) (ms : List Metric) :
    (summarize r ms).detection_time = r.detection_time := (summarize_status r ms).2.1

theorem summarize_timeout_eq (r : RQ3Result) (ms : List Metric) :
    (summarize r ms).timeout = r.timeout := (summarize_status r ms).2.2.1

theorem summarize_oom_eq (r : RQ3Result) (ms : List Metric) :
    (summarize r ms).oom = r.oom := (summarize_status r ms).2.2.2

theorem runAttemptMetrics_oom (T : ℚ) (r : RQ3Result) (b : LaunchOutcome)
    (log : FileRead) : (runAttemptMetrics T r b log).1.oom = r.oom := by
  cases b with
  | raises msg => rfl
  | exits t =>
    by_cases h : t ≤ T + 10 <;>
      simp [runAttemptMetrics, h, summarize_oom_eq]
  | hangs => simp [runAttemptMetrics, summarize_oom_eq]

end RQ3

namespace Runner1

theorem runAttempt_oom (T : ℚ) (r : RunResult) (b : LaunchOutcome) :
    (runAttempt T r b).1.oom = r.oom := by
  cases b with
  | raises msg => rfl
  | exits t => by_cases h : t ≤ T + 10 <;> simp [runAttempt, h]
  | hangs => rfl

end Runner1

/-- C2: for every run with configured timeout `T`: if the subprocess
exits within `T + 10` seconds of launch, the result has status
`"completed"` and a detection time equal to the elapsed wall time
formatted to one decimal place with an `"s"` suffix and no kill is
issued; if it has not exited after `T + 10` seconds it is force-killed
and the result has status `"timeout"`, `timeout = true` and detection
time `"Timeout"` — in both the ablation runner and the RQ3 analyzer. -/
theorem claim_C2_deadline (T t : ℚ) (c k : String) (log : FileRead) :
    (t ≤ T + 10 →
      (Runner1.run_fuzzing T c k true (.exits t)).map
          (fun rk => (rk.1.status, rk.1.detection_time, rk.1.timeout, rk.2)) =
        some ("completed", some (fmtOneDecimal t ++ "s"), false, false) ∧
      (RQ3.run_fuzzing_with_metrics T c k true (.exits t) log).map
          (fun rk => (rk.1.status, rk.1.detection_time, rk.1.timeout, rk.2)) =
        some ("completed", some (fmtOneDecimal t ++ "s"), false, false)) ∧
    (T + 10 < t →
      (Runner1.run_fuzzing T c k true (.exits t)).map
          (fun rk => (rk.1.status, rk.1.detection_time, rk.1.timeout, rk.2)) =
        some ("timeout", some "Timeout", true, true) ∧
      (RQ3.run_fuzzing_with_metrics T c k true (.exits t) log).map
          (fun rk => (rk.1.status, rk.1.detection_time, rk.1.timeout, rk.2)) =
        some ("timeout", some "Timeout", true, true)) ∧
    ((Runner1.run_fuzzing T c k true .hangs).map
          (fun rk => (rk.1.status, rk.1.detection_time, rk.1.timeout, rk.2)) =
        some ("timeout", some "Timeout", true, true) ∧
      (RQ3.run_fuzzing_with_metrics T c k true .hangs log).map
          (fun rk => (rk.1.status, rk.1.detection_time, rk.1.timeout, rk.2)) =
        some ("timeout", some "Timeout", true, true)) := by
  refine ⟨fun h => ⟨?_, ?_⟩, fun h => ⟨?_, ?_⟩, ?_, ?_⟩
  · simp [Runner1.run_fuzzing, Runner1.runAttempt, h]
  · simp [RQ3.run_fuzzing_with_metrics, RQ3.runAttemptMetrics, h,
      RQ3.summarize_status_eq, RQ3.summarize_detection_eq, RQ3.summarize_timeout_eq]
  · have h' : ¬ t ≤ T + 10 := not_le.mpr h
    simp [Runner1.run_fuzzing, Runner1.runAttempt, h']
  · have h' : ¬ t ≤ T + 10 := not_le.mpr h
    simp [RQ3.run_fuzzing_with_metrics, RQ3.runAttemptMetrics, h',
      RQ3.summarize_status_eq, RQ3.summarize_detection_eq, RQ3.summarize_timeout_eq]
  · simp [Runner1.run_fuzzing, Runner1.runAttempt]
  · simp [RQ3.run_fuzzing_with_metrics, RQ3.runAttemptMetrics,
      RQ3.summarize_status_eq, RQ3.summarize_detection_eq, RQ3.summarize_timeout_eq]

theorem claim_C2_witness :
    ((5 : ℚ) ≤ 60 + 10) ∧ ((60 : ℚ) + 10 < 100) ∧
    (Runner1.run_fuzzing 60 "egd_finance" "ItyFuzz" true (.exits 5)).map
        (fun rk => (rk.1.status, rk.1.detection_time, rk.1.timeout, rk.2)) =
      some ("completed", some (fmtOneDecimal 5 ++ "s"), false, false) ∧
    (Runner1.run_fuzzing 60 "egd_finance" "ItyFuzz" true (.exits 100)).map
        (fun rk => (rk.1.status, rk.1.detection_time, rk.1.timeout, rk.2)) =
      some ("timeout", some "Timeout", true, true) :=
  ⟨by norm_num, by norm_num,
   ((claim_C2_deadline 60 5 "egd_finance" "ItyFuzz" (.ok [])).1 (by norm_num)).1,
   ((claim_C2_deadline 60 100 "egd_finance" "ItyFuzz" (.ok [])).2.1 (by norm_num)).1⟩

/-- C3: for every run whose scraped sample sequence has corpus sizes
`[c0, …, cn]` over `n+1 ≥ 2` samples, the recorded `state_growth_rate`
equals `(cn - c0) / (n+1)` exactly; a run with exactly one sample yields
`state_growth_rate = 0` rather than a division error. -/
theorem claim_C3_growth_rate (T t : ℚ) (c k : String) (log : FileRead) :
    (2 ≤ ((parse_state_metrics log).map fun m => m.corpus_size).length →
      (RQ3.run_fuzzing_with_metrics T c k true (.exits t) log).map
          (fun rk => rk.1.state_growth_rate) =
        some (((((((parse_state_metrics log).map fun m => m.corpus_size).getLast?.getD 0
                : ℕ) : ℤ) -
              ((((parse_state_metrics log).map fun m => m.corpus_size).head?.getD 0
                : ℕ) : ℤ) : ℤ) : ℚ) /
          ((((parse_state_metrics log).map fun m => m.corpus_size).length : ℕ) : ℚ))) ∧
    (((parse_state_metrics log).map fun m => m.corpus_size).length = 1 →
      (RQ3.run_fuzzing_with_metrics T c k true (.exits t) log).map
          (fun rk => rk.1.state_growth_rate) = some 0) := by
  constructor
  · intro hlen
    rw [List.length_map] at hlen
    have h1 : 1 < (parse_state_metrics log).length := by omega
    have hmax : max (parse_state_metrics log).length 1 =
        (parse_state_metrics log).length := Nat.max_eq_left (by omega)
    by_cases ht : t ≤ T + 10 <;>
      simp [RQ3.run_fuzzing_with_metrics, RQ3.runAttemptMetrics, ht,
        RQ3.summarize_growth, h1, hmax]
  · intro hlen
    rw [List.length_map] at hlen
    have h1 : ¬ 1 < (parse_state_metrics log).length := by omega
    by_cases ht : t ≤ T + 10 <;>
      simp [RQ3.run_fuzzing_with_metrics, RQ3.runAttemptMetrics, ht,
        RQ3.summarize_growth, h1]

theorem claim_C3_witness :
    2 ≤ ((parse_state_metrics
        (.ok ["corpus 10\n".toList, "corpus 4\n".toList])).map
          fun m => m.corpus_size).length ∧
    ((parse_state_metrics (.ok ["corpus 5\n".toList])).map
        fun m => m.corpus_size).length = 1 ∧
    (RQ3.run_fuzzing_with_metrics 60 "n00d_token" "ItyFuzz" true (.exits 5)
        (.ok ["corpus 10\n".toList, "corpus 4\n".toList])).map
      (fun rk => rk.1.state_growth_rate) =
      some (((((((parse_state_metrics
              (.ok ["corpus 10\n".toList, "corpus 4\n".toList])).map
                fun m => m.corpus_size).getLast?.getD 0 : ℕ) : ℤ) -
            ((((parse_state_metrics
              (.ok ["corpus 10\n".toList, "corpus 4\n".toList])).map
                fun m => m.corpus_size).head?.getD 0 : ℕ) : ℤ) : ℤ) : ℚ) /
        ((((parse_state_metrics
            (.ok ["corpus 10\n".toList, "corpus 4\n".toList])).map
              fun m => m.corpus_size).length : ℕ) : ℚ)) ∧
    (RQ3.run_fuzzing_with_metrics 60 "n00d_token" "ItyFuzz" true (.exits 5)
        (.ok ["corpus 5\n".toList])).map
      (fun rk => rk.1.state_growth_rate) = some 0 :=
  ⟨by decide, by decide,
   (claim_C3_growth_rate 60 5 "n00d_token" "ItyFuzz"
      (.ok ["corpus 10\n".toList, "corpus 4\n".toList])).1 (by decide),
   (claim_C3_growth_rate 60 5 "n00d_token" "ItyFuzz"
      (.ok ["corpus 5\n".toList])).2 (by decide)⟩

/-- C9: the out-of-memory flag is dead: it is initialized to `false`, no
code path of either runner ever sets it, and the csv rows serialize it
unchanged, hence as `false`, for every sweep. -/
theorem claim_C9_oom_always_false :
    (∀ (T : ℚ) (c k : String) (fsHas : Bool) (b : LaunchOutcome)
        (rk : Runner1.RunResult × Bool),
      Runner1.run_fuzzing T c k fsHas b = some rk → rk.1.oom = false) ∧
    (∀ (T : ℚ) (c k : String) (fsHas : Bool) (b : LaunchOutcome) (log : FileRead)
        (rk : RQ3.RQ3Result × Bool),
      RQ3.run_fuzzing_with_metrics T c k fsHas b log = some rk → rk.1.oom = false) ∧
    (∀ (env : Runner1.Env) (T : ℚ) (r : Runner1.RunResult),
      r ∈ Runner1.run_all_tests env T → r.oom = false) ∧
    (∀ (env : Runner1.Env) (T : ℚ) (row : Runner1.CsvRow),
      row ∈ Runner1.save_rows (Runner1.run_all_tests env T) → row.oom = false) := by
  have h1 : ∀ (T : ℚ) (c k : String) (fsHas : Bool) (b : LaunchOutcome)
      (rk : Runner1.RunResult × Bool),
      Runner1.run_fuzzing T c k fsHas b = some rk → rk.1.oom = false := by
    intro T c k fsHas b rk h
    cases fsHas with
    | false => simp [Runner1.run_fuzzing] at h
    | true =>
      simp only [Runner1.run_fuzzing, Bool.not_true, Bool.false_eq_true, if_false,
        Option.some.injEq] at h
      rw [← h, Runner1.runAttempt_oom]
  have h3 : ∀ (env : Runner1.Env) (T : ℚ) (r : Runner1.RunResult),
      r ∈ Runner1.run_all_tests env T → r.oom = false := by
    intro env T r hr
    rw [Runner1.run_all_tests, Runner1.sweep] at hr
    obtain ⟨c, _, hr⟩ := List.mem_flatMap.1 hr
    obtain ⟨kc, _, hrun⟩ := List.mem_filterMap.1 hr
    obtain ⟨rk, hmk, hfst⟩ := Option.map_eq_some'.1 hrun
    rw [← hfst]
    exact h1 _ _ _ _ _ _ hmk
  refine ⟨h1, ?_, h3, ?_⟩
  · intro T c k fsHas b log rk h
    cases fsHas with
    | false => simp [RQ3.run_fuzzing_with_metrics] at h
    | true =>
      simp only [RQ3.run_fuzzing_with_metrics, Bool.not_true, Bool.false_eq_true, if_false,
        Option.some.injEq] at h
      rw [← h, RQ3.runAttemptMetrics_oom]
  · intro env T row hrow
    obtain ⟨r, hr, hrrow⟩ := List.mem_map.1 hrow
    rw [← hrrow]
    exact h3 env T r hr

theorem claim_C9_witness :
    Runner1.run_fuzzing 60 "egd_finance" "ItyFuzz" true (.raises "boom") =
      some ({ project := "egd_finance", config := "ItyFuzz",
              status := "error", error := some "boom" }, false) ∧
    ({ project := "egd_finance", config := "ItyFuzz",
       status := "error", error := some "boom" } : Runner1.RunResult).oom = false :=
  ⟨rfl, claim_C9_oom_always_false.1 60 "egd_finance" "ItyFuzz" true (.raises "boom")
    ({ project := "egd_finance", config := "ItyFuzz",
       status := "error", error := some "boom" }, false) rfl⟩

theorem writeIfAbsent_preserves (fs : FS) (name code n : String)
    (h : (fs n).isSome) : writeIfAbsent fs name code n = fs n := by
  unfold writeIfAbsent
  by_cases hx : (fs name).isSome
  · simp [hx]
  · simp only [hx, Bool.false_eq_true, if_false]
    by_cases hn : n = name
    · subst hn; exact absurd h hx
    · simp [hn]

theorem writeMissing_preserves (catalog : List (String × String)) :
    ∀ (fs : FS) (n : String), (fs n).isSome → writeMissing catalog fs n = fs n := by
  induction catalog with
  | nil => intro fs n _; rfl
  | cons nc cat ih =>
    intro fs n h
    have hstep : writeIfAbsent fs (nc.1 ++ ".sol") nc.2 n = fs n :=
      writeIfAbsent_preserves fs _ nc.2 n h
    calc writeMissing (nc :: cat) fs n
        = writeMissing cat (writeIfAbsent fs (nc.1 ++ ".sol") nc.2) n := rfl
      _ = writeIfAbsent fs (nc.1 ++ ".sol") nc.2 n := ih _ n (by rw [hstep]; exact h)
      _ = fs n := hstep

theorem writeIfAbsent_covers (fs : FS) (name code : String) :
    ((writeIfAbsent fs name code) name).isSome := by
  unfold writeIfAbsent
  by_cases hx : (fs name).isSome
  · simp [hx]
  · simp [hx]

theorem writeMissing_covers (catalog : List (String × String)) :
    ∀ (fs : FS) (n : String), n ∈ catalog.map (fun nc => nc.1 ++ ".sol") →
      ((writeMissing catalog fs) n).isSome := by
  induction catalog with
  | nil => intro fs n h; simp at h
  | cons nc cat ih =>
    intro fs n h
    rw [List.map_cons] at h
    rcases List.mem_cons.1 h with h1 | h2
    · subst h1
      have hs : ((writeIfAbsent fs (nc.1 ++ ".sol") nc.2) (nc.1 ++ ".sol")).isSome :=
        writeIfAbsent_covers fs _ nc.2
      have := writeMissing_preserves cat (writeIfAbsent fs (nc.1 ++ ".sol") nc.2) _ hs
      calc ((writeMissing (nc :: cat) fs) (nc.1 ++ ".sol")).isSome
          = ((writeMissing cat (writeIfAbsent fs (nc.1 ++ ".sol") nc.2)) (nc.1 ++ ".sol")).isSome := rfl
        _ = ((writeIfAbsent fs (nc.1 ++ ".sol") nc.2) (nc.1 ++ ".sol")).isSome := by rw [this]
        _ = true := hs
    · exact ih _ n h2

theorem writeMissing_not_mem (catalog : List (String × String)) :
    ∀ (fs : FS) (n : String), n ∉ catalog.map (fun nc => nc.1 ++ ".sol") →
      writeMissing catalog fs n = fs n := by
  induction catalog with
  | nil => intro fs n _; rfl
  | cons nc cat ih =>
    intro fs n h
    have hne : n ≠ nc.1 ++ ".sol" := by
      intro he; exact h (by simp [List.map_cons, he])
    have h2 : n ∉ cat.map (fun nc => nc.1 ++ ".sol") := by
      intro hm; exact h (by simp [List.map_cons, hm])
    have hstep : writeIfAbsent fs (nc.1 ++ ".sol") nc.2 n = fs n := by
      unfold writeIfAbsent
      by_cases hx : (fs (nc.1 ++ ".sol")).isSome
      · simp [hx]
      · simp [hx, hne]
    calc writeMissing (nc :: cat) fs n
        = writeMissing cat (writeIfAbsent fs (nc.1 ++ ".sol") nc.2) n := rfl
      _ = writeIfAbsent fs (nc.1 ++ ".sol") nc.2 n := ih _ n h2
      _ = fs n := hstep

theorem writeMissing_idem (catalog : List (String × String)) (fs : FS) :
    writeMissing catalog (writeMissing catalog fs) = writeMissing catalog fs := by
  funext n
  by_cases hm : n ∈ catalog.map (fun nc => nc.1 ++ ".sol")
  · exact writeMissing_preserves catalog _ n (writeMissing_covers catalog fs n hm)
  · rw [writeMissing_not_mem catalog _ n hm, writeMissing_not_mem catalog fs n hm]

/-- C4: fixture generation is idempotent: each generator writes
`<name>.sol` only when the file is absent — a file that already exists
is left byte-identical — and a second run changes nothing; after one run
every catalog file exists. -/
theorem claim_C4_fixtures_idempotent :
    (∀ (fs : FS) (n : String), (fs n).isSome →
      Runner1.create_sample_contracts fs n = fs n) ∧
    (∀ (fs : FS) (n : String), (fs n).isSome →
      RQ3.create_realistic_contracts fs n = fs n) ∧
    (∀ fs : FS, Runner1.create_sample_contracts (Runner1.create_sample_contracts fs) =
      Runner1.create_sample_contracts fs) ∧
    (∀ fs : FS, RQ3.create_realistic_contracts (RQ3.create_realistic_contracts fs) =
      RQ3.create_realistic_contracts fs) ∧
    (∀ (fs : FS) (n : String),
      n ∈ Runner1.sampleCatalog.map (fun nc => nc.1 ++ ".sol") →
      ((Runner1.create_sample_contracts fs) n).isSome) ∧
    (∀ (fs : FS) (n : String),
      n ∈ RQ3.realisticCatalog.map (fun nc => nc.1 ++ ".sol") →
      ((RQ3.create_realistic_contracts fs) n).isSome) :=
  ⟨fun fs n h => writeMissing_preserves _ fs n h,
   fun fs n h => writeMissing_preserves _ fs n h,
   fun fs => writeMissing_idem _ fs,
   fun fs => writeMissing_idem _ fs,
   fun fs n h => writeMissing_covers _ fs n h,
   fun fs n h => writeMissing_covers _ fs n h⟩

theorem claim_C4_witness :
    (editedFS "bacon_protocol.sol").isSome ∧
    Runner1.create_sample_contracts editedFS "bacon_protocol.sol" =
      editedFS "bacon_protocol.sol" :=
  ⟨by decide,
   claim_C4_fixtures_idempotent.1 editedFS "bacon_protocol.sol" (by decide)⟩

namespace Viz

theorem linspace20_not_isEmpty (m : ℚ) : (linspace20 m).isEmpty = false := by
  simp [linspace20, List.isEmpty_iff, List.range_succ]

theorem resampleRuns_go (runs : List (List ℚ × List ℚ))
    (h : ∀ r ∈ runs, r.1.isEmpty = false) :
    ∀ (acc1 : List ℚ) (rows : List (List ℚ)), acc1.isEmpty = false →
      runs.foldl resampleStep (acc1, rows) =
        (acc1, rows ++ runs.map fun ts => resampleRun ts.1 ts.2) := by
  induction runs with
  | nil => intro acc1 rows _; simp
  | cons r rs ih =>
    intro acc1 rows hacc
    have hr : r.1.isEmpty = false := h r (List.mem_cons_self r rs)
    have hrs : ∀ x ∈ rs, x.1.isEmpty = false :=
      fun x hx => h x (List.mem_cons_of_mem r hx)
    rw [List.foldl_cons]
    have hstep : resampleStep (acc1, rows) r =
        (acc1, rows ++ [resampleRun r.1 r.2]) := by
      simp [resampleStep, hr, hacc, resampleRun]
    rw [hstep, ih hrs acc1 (rows ++ [resampleRun r.1 r.2]) hacc]
    simp

theorem resampleRuns_eq (r0 : List ℚ × List ℚ) (rs : List (List ℚ × List ℚ))
    (h : ∀ r ∈ r0 :: rs, r.1.isEmpty = false) :
    resampleRuns (r0 :: rs) =
      (linspace20 (maxList r0.1),
        (r0 :: rs).map fun ts => resampleRun ts.1 ts.2) := by
  have hr0 : r0.1.isEmpty = false := h r0 (List.mem_cons_self r0 rs)
  have hrs : ∀ x ∈ rs, x.1.isEmpty = false :=
    fun x hx => h x (List.mem_cons_of_mem r0 hx)
  rw [resampleRuns, List.foldl_cons]
  have hstep : resampleStep ([], []) r0 =
      (linspace20 (maxList r0.1), [resampleRun r0.1 r0.2]) := by
    simp [resampleStep, hr0, resampleRun]
  rw [hstep, resampleRuns_go rs hrs _ _ (linspace20_not_isEmpty _)]
  simp

/-- Every run stored by the grouping loop has nonempty times. -/
theorem groupByConfig_runs_nonempty (metrics : List RQ3.RQ3Result) :
    ∀ cd ∈ groupByConfig metrics, ∀ r ∈ cd.2, r.1.isEmpty = false := by
  rw [groupByConfig]
  have key : ∀ (ms : List RQ3.RQ3Result) (d : ConfigRuns),
      (∀ cd ∈ d, ∀ r ∈ cd.2, r.1.isEmpty = false) →
      ∀ cd ∈ ms.foldl
        (fun d result =>
          let d := ensureKey d result.config
          let timeline := result.metrics_timeline
          if !timeline.isEmpty then
            let times := timeline.map fun m => m.timestamp
            let sizes := timeline.map fun m => (m.corpus_size : ℚ)
            if !times.isEmpty && !sizes.isEmpty then
              appendRun d result.config (times, sizes)
            else d
          else d) d,
        ∀ r ∈ cd.2, r.1.isEmpty = false := by
    intro ms
    induction ms with
    | nil => intro d hd; simpa using hd
    | cons result ms ih =>
      intro d hd
      rw [List.foldl_cons]
      apply ih
      have hens : ∀ cd ∈ ensureKey d result.config, ∀ r ∈ cd.2, r.1.isEmpty = false := by
        intro cd hcd r hr
        rw [ensureKey] at hcd
        by_cases hk : d.any (fun e => e.1 == result.config)
        · rw [if_pos hk] at hcd; exact hd cd hcd r hr
        · rw [if_neg hk] at hcd
          rcases List.mem_append.1 hcd with hm | hm
          · exact hd cd hm r hr
          · simp at hm
            rw [hm] at hr
            simp at hr
      rcases htl : result.metrics_timeline with _ | ⟨m0, tl⟩
      · simpa [htl] using hens
      · simp only [htl, List.map_cons, List.isEmpty_cons, Bool.not_false, if_true,
          Bool.and_self]
        intro cd hcd r hr
        rw [appendRun] at hcd
        obtain ⟨e, he, hecd⟩ := List.mem_map.1 hcd
        by_cases hek : e.1 == result.config
        · rw [if_pos hek] at hecd
          rw [← hecd] at hr
          rcases List.mem_append.1 hr with hm | hm
          · exact hens e he r hm
          · simp at hm
            rw [hm]
            simp
        · rw [if_neg hek] at hecd
          rw [← hecd] at hr
          exact hens e he r hr
  exact key metrics [] (by simp)

/-- Sorting permutes the group list, so membership carries over. -/
theorem sortByKey_mem (d : ConfigRuns) (cd : String × List (List ℚ × List ℚ)) :
    cd ∈ sortByKey d → cd ∈ d := by
  intro h
  exact (List.mergeSort_perm d (fun a b => a.1 ≤ b.1)).mem_iff.1 h

end Viz

/-- C7: when the metrics JSON file is absent or holds an empty result
list, the visualizer logs a message and returns, producing zero image
files and raising no exception. -/
theorem claim_C7_visualizer_empty (file : Option (List RQ3.RQ3Result))
    (h : file = none ∨ file = some []) :
    (Viz.generate_all_plots file).1 = [] ∧ (Viz.generate_all_plots file).2 ≠ [] := by
  rcases h with h | h <;> subst h <;>
    simp [Viz.generate_all_plots, Viz.load_metrics]

theorem claim_C7_witness :
    ((none : Option (List RQ3.RQ3Result)) = none ∨
      (none : Option (List RQ3.RQ3Result)) = some []) ∧
    (Viz.generate_all_plots none).1 = [] ∧
    (Viz.generate_all_plots none).2 ≠ [] :=
  ⟨Or.inl rfl, claim_C7_visualizer_empty none (Or.inl rfl)⟩

/-- C8: in the timeline chart each run's (time, corpus-size) series is
resampled by linear interpolation onto twenty evenly spaced points
spanning that run's own observed time range, the resampled series are
averaged pointwise across all contracts sharing a configuration, and one
line per configuration (in sorted name order, x-values taken from the
configuration's first run) is plotted on a logarithmic y-axis. -/
theorem claim_C8_timeline_chart (metrics : List RQ3.RQ3Result) :
    (Viz.plot_state_corpus_timeline metrics).yscale = "log" ∧
    (Viz.plot_state_corpus_timeline metrics).lines =
      (Viz.sortByKey (Viz.groupByConfig metrics)).filterMap fun cd =>
        match cd.2 with
        | [] => none
        | r0 :: rs =>
          some { label := cd.1,
                 xs := Viz.linspace20 (Viz.maxList r0.1),
                 ys := Viz.meanPointwise
                   ((r0 :: rs).map fun ts => Viz.resampleRun ts.1 ts.2),
                 color := Viz.colorOf cd.1 } := by
  refine ⟨rfl, ?_⟩
  simp only [Viz.plot_state_corpus_timeline]
  apply List.filterMap_congr
  intro cd hcd
  have hruns : ∀ r ∈ cd.2, r.1.isEmpty = false :=
    Viz.groupByConfig_runs_nonempty metrics cd (Viz.sortByKey_mem _ cd hcd)
  rcases hcd2 : cd.2 with _ | ⟨r0, rs⟩
  · simp [hcd2]
  · rw [hcd2] at hruns
    have hres := Viz.resampleRuns_eq r0 rs hruns
    simp [hcd2, hres]

end ItyHarness
